import Mathlib

/-!
Verification of the event fan-out broker (`events` package): the tagged
stream-event value and its sequence accessor, the broker's submit and
broadcast paths, the subscriber lifecycle, and the join-and-playback
coordinator that stitches a historical replay to the live broadcast.
The definitions below are shallow embeddings of the corresponding Go
functions; concurrency is modelled by explicit state passing, channels by
lists, and the external persistence port by its documented contract.
-/

namespace Events

/-- Payload of a `RepoCommit` frame; only the assigned sequence number is
relevant to the broker (`comatproto.SyncSubscribeRepos_Commit`). -/
structure SyncSubscribeRepos_Commit where
  seq : Int
deriving DecidableEq, Repr

/-- Payload of a `RepoHandle` frame (`comatproto.SyncSubscribeRepos_Handle`). -/
structure SyncSubscribeRepos_Handle where
  seq : Int
deriving DecidableEq, Repr

/-- Payload of a `RepoMigrate` frame (`comatproto.SyncSubscribeRepos_Migrate`). -/
structure SyncSubscribeRepos_Migrate where
  seq : Int
deriving DecidableEq, Repr

/-- Payload of a `RepoTombstone` frame (`comatproto.SyncSubscribeRepos_Tombstone`). -/
structure SyncSubscribeRepos_Tombstone where
  seq : Int
deriving DecidableEq, Repr

/-- Payload of an `Info` frame; it carries no sequence number
(`comatproto.SyncSubscribeRepos_Info`). -/
structure SyncSubscribeRepos_Info where
  name : Option String := none
  message : Option String := none
deriving DecidableEq, Repr

/-- Payload of a label batch frame (`comatproto.LabelSubscribeLabels_Labels`),
which also carries an assigned sequence number. -/
structure LabelSubscribeLabels_Labels where
  seq : Int
deriving DecidableEq, Repr

/-- Payload of a label info frame (`comatproto.LabelSubscribeLabels_Info`). -/
structure LabelSubscribeLabels_Info where
  name : Option String := none
deriving DecidableEq, Repr

/-- The synthetic error frame the broker can emit. -/
structure ErrorFrame where
  error : String
  message : String := ""
deriving DecidableEq, Repr

/-- The stream event value: a struct of nullable variant pointers, exactly as
in the Go source, together with the private routing fields. -/
structure XRPCStreamEvent where
  Error : Option ErrorFrame := none
  RepoCommit : Option SyncSubscribeRepos_Commit := none
  RepoHandle : Option SyncSubscribeRepos_Handle := none
  RepoInfo : Option SyncSubscribeRepos_Info := none
  RepoMigrate : Option SyncSubscribeRepos_Migrate := none
  RepoTombstone : Option SyncSubscribeRepos_Tombstone := none
  LabelLabels : Option LabelSubscribeLabels_Labels := none
  LabelInfo : Option LabelSubscribeLabels_Info := none
  PrivUid : Nat := 0
  PrivPdsId : Nat := 0
  PrivRelevantPds : List Nat := []
deriving DecidableEq, Repr

/-- `sequenceForEvent`, translated case for case from the Go switch: the
argument is optional because the Go function accepts a nil pointer. Note the
switch has no case for the label variants, which therefore fall through to
the default. -/
def sequenceForEvent (evt : Option XRPCStreamEvent) : Int :=
  match evt with
  | none => -1
  | some e =>
    match e.RepoCommit with
    | some c => c.seq
    | none =>
      match e.RepoHandle with
      | some h => h.seq
      | none =>
        match e.RepoMigrate with
        | some m => m.seq
        | none =>
          match e.RepoTombstone with
          | some t => t.seq
          | none =>
            match e.RepoInfo with
            | some _ => -1
            | none =>
              match e.Error with
              | some _ => -1
              | none => -1

/-- Abbreviation: the sequence of a (non-nil) event value. -/
def seqOf (e : XRPCStreamEvent) : Int :=
  sequenceForEvent (some e)

/-- An event whose only populated variant is a `RepoCommit` with the given
sequence. -/
def commitEvt (s : Int) : XRPCStreamEvent :=
  { RepoCommit := some { seq := s } }

/-- An event whose only populated variant is a `RepoHandle`. -/
def handleEvt (s : Int) : XRPCStreamEvent :=
  { RepoHandle := some { seq := s } }

/-- An event whose only populated variant is a `RepoMigrate`. -/
def migrateEvt (s : Int) : XRPCStreamEvent :=
  { RepoMigrate := some { seq := s } }

/-- An event whose only populated variant is a `RepoTombstone`. -/
def tombstoneEvt (s : Int) : XRPCStreamEvent :=
  { RepoTombstone := some { seq := s } }

/-- An event whose only populated variant is an `Info` frame. -/
def infoEvt : XRPCStreamEvent :=
  { RepoInfo := some {} }

/-- An event whose only populated variant is a label batch. -/
def labelsEvt (s : Int) : XRPCStreamEvent :=
  { LabelLabels := some { seq := s } }

/-- An event whose only populated variant is a label info frame. -/
def labelInfoEvt : XRPCStreamEvent :=
  { LabelInfo := some {} }

/-- An event whose only populated variant is an `Error` frame. -/
def errorEvt (code msg : String) : XRPCStreamEvent :=
  { Error := some { error := code, message := msg } }

/-- `EventManager.persistAndSendEvent`: calls the persistence port's
`Persist`; a failure is only logged (the returned list is the log output)
and the broadcast is driven by the persistence layer itself. -/
def persistAndSendEvent (persist : XRPCStreamEvent → Except String Unit)
    (ev : XRPCStreamEvent) : List String :=
  match persist ev with
  | Except.error e => ["failed to persist outbound event: " ++ e]
  | Except.ok _ => []

/-- `EventManager.AddEvent` (the Submit operation): runs
`persistAndSendEvent` and returns nil unconditionally. The result pairs the
emitted log lines with the returned error value. -/
def AddEvent (persist : XRPCStreamEvent → Except String Unit)
    (ev : XRPCStreamEvent) : List String × Option String :=
  (persistAndSendEvent persist ev, none)

/-- Which channel `Subscribe` hands back to the caller: the subscriber's own
live outgoing queue (no `since` cursor) or the merged channel written by the
join coordinator (`since` present). -/
inductive ReturnedChan where
  | liveQueue
  | mergedOut
deriving DecidableEq, Repr

/-- `EventManager.addSubscriber`: append the subscriber to the broker's list
(subscribers are identified here by their id). -/
def addSubscriber (subs : List Nat) (sub : Nat) : List Nat :=
  subs ++ [sub]

/-- The synchronous result of `EventManager.Subscribe`: the returned channel,
whether the returned cancel function is non-nil, the returned error, the
filter installed on the created subscriber, and the broker's subscriber list
after the call returns. -/
structure SubscribeRet where
  outChan : Option ReturnedChan
  cancelNonNil : Bool
  err : Option String
  subFilter : XRPCStreamEvent → Bool
  subsAfter : List Nat

/-- The synchronous part of `EventManager.Subscribe`: a nil filter is
replaced by an accept-all predicate, the subscriber is created with its
once-guarded cleanup, and on every path the call returns a non-nil channel,
the cleanup function, and a nil error. With no `since` cursor the subscriber
attaches immediately and its own queue is returned; with a cursor the merged
channel is returned and the join coordinator attaches the subscriber later. -/
def Subscribe (subs : List Nat) (id : Nat)
    (filter : Option (XRPCStreamEvent → Bool)) (since : Option Int) :
    SubscribeRet :=
  let f :=
    match filter with
    | none => fun _ => true
    | some g => g
  { outChan :=
      some (match since with
        | none => ReturnedChan.liveQueue
        | some _ => ReturnedChan.mergedOut),
    cancelNonNil := true,
    err := none,
    subFilter := f,
    subsAfter :=
      match since with
      | none => addSubscriber subs id
      | some _ => subs }

/-- Claim C5: for every persistence outcome and every event, `AddEvent`
returns nil; a `Persist` failure is only logged and is not surfaced to the
producer. -/
theorem addEvent_returns_nil (persist : XRPCStreamEvent → Except String Unit)
    (ev ev2 : XRPCStreamEvent) (msg : String) :
    (AddEvent persist ev).2 = none ∧
    (AddEvent (fun _ => Except.error msg) ev2).1 =
      ["failed to persist outbound event: " ++ msg] ∧
    (AddEvent (fun _ => Except.error msg) ev2).2 = none :=
  ⟨rfl, rfl, rfl⟩

/-- Claim C8 counterexample: a label batch event carrying sequence 5 is a
data-carrying variant, yet `sequenceForEvent` returns the sentinel -1 for it
(the Go switch has no case for `LabelLabels`), so the accessor does not
return the assigned Seq for every data-carrying variant. -/
theorem sequenceForEvent_labels_counterexample :
    (labelsEvt 5).LabelLabels = some { seq := 5 } ∧
    sequenceForEvent (some (labelsEvt 5)) = -1 ∧
    sequenceForEvent (some (labelsEvt 5)) ≠ 5 := by
  refine ⟨rfl, rfl, ?_⟩
  decide

/-- Claim C8 (amended): `sequenceForEvent` returns the assigned Seq for the
`RepoCommit`, `RepoHandle`, `RepoMigrate` and `RepoTombstone` variants, and
returns the sentinel -1 for a nil event, for the `Info` and `Error`
variants, and also for the label variants (`LabelLabels`, `LabelInfo`),
which the switch does not handle. -/
theorem sequenceForEvent_spec (s : Int) (code msg : String) :
    sequenceForEvent none = -1 ∧
    sequenceForEvent (some (commitEvt s)) = s ∧
    sequenceForEvent (some (handleEvt s)) = s ∧
    sequenceForEvent (some (migrateEvt s)) = s ∧
    sequenceForEvent (some (tombstoneEvt s)) = s ∧
    sequenceForEvent (some infoEvt) = -1 ∧
    sequenceForEvent (some (errorEvt code msg)) = -1 ∧
    sequenceForEvent (some (labelsEvt s)) = -1 ∧
    sequenceForEvent (some labelInfoEvt) = -1 :=
  ⟨rfl, rfl, rfl, rfl, rfl, rfl, rfl, rfl, rfl⟩

/-- Claim C10: `Subscribe` never fails: for every identity, filter (nil
included) and optional since cursor it returns a non-nil channel, a non-nil
cancel function and a nil error, and a nil filter is replaced by the
accept-all predicate on the created subscriber. -/
theorem subscribe_total (subs : List Nat) (id : Nat)
    (filter : Option (XRPCStreamEvent → Bool)) (since : Option Int) :
    (Subscribe subs id filter since).err = none ∧
    (Subscribe subs id filter since).outChan.isSome = true ∧
    (Subscribe subs id filter since).cancelNonNil = true ∧
    (Subscribe subs id none since).subFilter = fun _ => true :=
  ⟨rfl, rfl, rfl, rfl⟩

/-- One attached consumer, as in the Go `Subscriber` struct: its bounded
outgoing queue (list contents plus capacity), lifecycle flags, the
once-guard of the cleanup closure, the two metrics counters, and the filter
predicate. -/
structure Subscriber where
  id : Nat
  queue : List XRPCStreamEvent
  bufferSize : Nat
  doneClosed : Bool
  outgoingClosed : Bool
  cleanedUp : Bool
  cleanupRan : Bool
  enqueuedCount : Nat
  broadcastCount : Nat
  filter : XRPCStreamEvent → Bool

/-- `EventManager.rmSubscriber`: find the first matching entry, overwrite it
with the final entry, and truncate the final entry (swap with last, then
truncate). -/
def rmSubscriber (subs : List Nat) (sub : Nat) : List Nat :=
  if sub ∈ subs then
    ((subs.set (subs.indexOf sub) (subs.getLastD 0)).dropLast)
  else subs

/-- The subscriber's `cleanup` closure, wrapped by `sync.OnceFunc`: on its
first invocation it closes the done signal, removes the subscriber from the
broker's list, closes the outgoing queue and sets the cleaned-up flag; any
later invocation is a no-op. -/
def cleanupSub (em : List Nat) (s : Subscriber) : List Nat × Subscriber :=
  if s.cleanupRan then (em, s)
  else
    (rmSubscriber em s.id,
     { s with
        cleanupRan := true,
        doneClosed := true,
        outgoingClosed := true,
        cleanedUp := true })

/-- The synthetic frame the broker delivers to an evicted slow consumer. -/
def consumerTooSlowFrame : XRPCStreamEvent :=
  { Error := some { error := "ConsumerTooSlow", message := "" } }

/-- The timeout, in seconds, of the error-frame send in the eviction task
(`time.After(time.Second * 5)` in the source). -/
def slowConsumerGraceSeconds : Nat := 5

/-- Whether the eviction task's error-frame send completed within the grace
period or timed out (the consumer may or may not drain in time). -/
inductive EvictSendOutcome where
  | delivered
  | timedOut
deriving DecidableEq, Repr

/-- The eviction task spawned by `broadcastEvent` on a full queue: under the
subscriber's own lock, if the subscriber is not yet cleaned up, it attempts
to deliver the `ConsumerTooSlow` error frame (bounded by the grace period);
in every case it then runs the subscriber's cleanup. -/
def evictSlowConsumer (em : List Nat) (s : Subscriber)
    (o : EvictSendOutcome) : List Nat × Subscriber :=
  let s1 :=
    if s.cleanedUp then s
    else
      match o with
      | EvictSendOutcome.delivered => { s with queue := s.queue ++ [consumerTooSlowFrame] }
      | EvictSendOutcome.timedOut => s
  cleanupSub em s1

/-- The branch taken by the non-blocking select in the broadcast loop. -/
inductive SelectBranch where
  | pushed
  | doneSeen
  | bufferFull
deriving DecidableEq, Repr

/-- Resolution of the non-blocking select: the send case is ready when the
queue has room, the done case when the done signal is closed, and the
default fires when neither is ready; when both are ready the runtime picks
either, modelled by the `preferDone` oracle. -/
def selectBranch (preferDone : Bool) (s : Subscriber) : SelectBranch :=
  if s.queue.length < s.bufferSize then
    if s.doneClosed && preferDone then SelectBranch.doneSeen
    else SelectBranch.pushed
  else if s.doneClosed then SelectBranch.doneSeen
  else SelectBranch.bufferFull

/-- The body of `broadcastEvent`'s loop for a single subscriber: if the
filter matches, increment the enqueued counter, run the non-blocking select
(possibly spawning an eviction task, the returned Bool), and then increment
the broadcast counter; a non-matching subscriber is untouched. -/
def broadcastToSub (preferDone : Bool) (evt : XRPCStreamEvent)
    (s : Subscriber) : Subscriber × Bool :=
  if s.filter evt then
    let s1 := { s with enqueuedCount := s.enqueuedCount + 1 }
    let step :=
      match selectBranch preferDone s1 with
      | SelectBranch.pushed => ({ s1 with queue := s1.queue ++ [evt] }, false)
      | SelectBranch.doneSeen => (s1, false)
      | SelectBranch.bufferFull => (s1, true)
    ({ step.1 with broadcastCount := step.1.broadcastCount + 1 }, step.2)
  else (s, false)

/-- `EventManager.broadcastEvent`: under the subscriber-list mutex, apply the
per-subscriber step to every subscriber; each result records the updated
subscriber and whether an eviction task was spawned for it. -/
def broadcastEvent (preferDone : Bool) (evt : XRPCStreamEvent)
    (subs : List Subscriber) : List (Subscriber × Bool) :=
  subs.map (broadcastToSub preferDone evt)

/-- The index of the first occurrence of an element sitting right after a
prefix that avoids it. -/
theorem indexOf_append_cons (P : List Nat) (sub : Nat) (Q : List Nat)
    (hP : sub ∉ P) : (P ++ sub :: Q).indexOf sub = P.length := by
  induction P with
  | nil => simp
  | cons p P ih =>
    have hp : p ≠ sub := fun hpeq => hP (by simp [hpeq])
    have hPm : sub ∉ P := fun hx => hP (List.mem_cons_of_mem _ hx)
    simp [List.indexOf_cons, beq_eq_false_iff_ne.mpr hp, ih hPm]

/-- Setting the position right after a prefix replaces the head of the
suffix. -/
theorem set_append_cons (P : List Nat) (x y : Nat) (Q : List Nat) :
    (P ++ x :: Q).set P.length y = P ++ y :: Q := by
  induction P with
  | nil => rfl
  | cons p P ih => simp [ih]

/-- `getLastD` of a list ending in a singleton. -/
theorem getLastD_append_singleton (P : List Nat) (x d : Nat) :
    (P ++ [x]).getLastD d = x := by
  induction P generalizing d with
  | nil => rfl
  | cons p P ih =>
    rw [List.cons_append, List.getLastD_cons]
    exact ih p

/-- A subscriber whose first occurrence is removed by `rmSubscriber` does not
reappear, provided it occurred at most once in the list (subscriber
identities are distinct pointers in the source). -/
theorem rmSubscriber_not_mem (subs : List Nat) (sub : Nat)
    (h : subs.count sub ≤ 1) : sub ∉ rmSubscriber subs sub := by
  unfold rmSubscriber
  by_cases hmem : sub ∈ subs
  · rw [if_pos hmem]
    obtain ⟨P, Q, rfl⟩ := List.append_of_mem hmem
    have hcnt : P.count sub + (Q.count sub + 1) ≤ 1 := by
      simpa [List.count_append] using h
    have hP : P.count sub = 0 := by omega
    have hQ : Q.count sub = 0 := by omega
    have hPmem : sub ∉ P := List.count_eq_zero.mp hP
    have hQmem : sub ∉ Q := List.count_eq_zero.mp hQ
    rw [indexOf_append_cons P sub Q hPmem]
    rcases Q.eq_nil_or_concat with rfl | ⟨Q', q, hQc⟩
    · have hlast : (P ++ [sub]).getLastD 0 = sub :=
        getLastD_append_singleton P sub 0
      rw [hlast, set_append_cons P sub sub [], List.dropLast_concat]
      exact hPmem
    · subst hQc
      simp only [List.concat_eq_append] at hQmem ⊢
      have hq : q ≠ sub := fun hqe => hQmem (by simp [hqe])
      have hre : P ++ sub :: (Q' ++ [q]) = (P ++ sub :: Q') ++ [q] := by simp
      have hlast : (P ++ sub :: (Q' ++ [q])).getLastD 0 = q := by
        rw [hre, getLastD_append_singleton]
      rw [hlast, set_append_cons P sub q (Q' ++ [q])]
      have hre2 : P ++ q :: (Q' ++ [q]) = (P ++ q :: Q') ++ [q] := by simp
      rw [hre2, List.dropLast_concat]
      intro hx
      rcases List.mem_append.mp hx with hx | hx
      · exact hPmem hx
      · rcases List.mem_cons.mp hx with hx | hx
        · exact hq hx.symm
        · exact hQmem (List.mem_append.mpr (Or.inl hx))
  · rw [if_neg hmem]
    exact hmem

/-- Claim C7: the cancel function returned by `Subscribe` (the once-guarded
cleanup) is idempotent: a second application is the identity, and a single
application closes the done signal and the outgoing channel, sets the
cleaned-up flag, and removes the subscriber from the broker's list. -/
theorem cancel_idempotent (em : List Nat) (s : Subscriber)
    (hran : s.cleanupRan = false) (hcount : em.count s.id ≤ 1) :
    cleanupSub (cleanupSub em s).1 (cleanupSub em s).2 = cleanupSub em s ∧
    (cleanupSub em s).2.doneClosed = true ∧
    (cleanupSub em s).2.outgoingClosed = true ∧
    (cleanupSub em s).2.cleanedUp = true ∧
    s.id ∉ (cleanupSub em s).1 := by
  have hrm := rmSubscriber_not_mem em s.id hcount
  simp [cleanupSub, hran, hrm]

/-- A concrete subscriber used to witness the cleanup claims. -/
def freshSub (n : Nat) : Subscriber :=
  { id := n, queue := [], bufferSize := 8, doneClosed := false,
    outgoingClosed := false, cleanedUp := false, cleanupRan := false,
    enqueuedCount := 0, broadcastCount := 0, filter := fun _ => true }

/-- Witness for claim C7 at a concrete broker list and subscriber. -/
theorem cancel_idempotent_witness :
    cleanupSub (cleanupSub [3, 7] (freshSub 7)).1 (cleanupSub [3, 7] (freshSub 7)).2
        = cleanupSub [3, 7] (freshSub 7) ∧
    (cleanupSub [3, 7] (freshSub 7)).2.doneClosed = true ∧
    (cleanupSub [3, 7] (freshSub 7)).2.outgoingClosed = true ∧
    (cleanupSub [3, 7] (freshSub 7)).2.cleanedUp = true ∧
    (7 : Nat) ∉ (cleanupSub [3, 7] (freshSub 7)).1 :=
  cancel_idempotent [3, 7] (freshSub 7) rfl (by decide)

/-- Claim C6: on a full queue the eviction task delivers the synthetic
`ConsumerTooSlow` error frame only if the subscriber is not yet cleaned up
and only when the send completes within the 5-second grace period, and it
runs the subscriber's cleanup in every case. -/
theorem slow_consumer_eviction (em : List Nat) (s : Subscriber)
    (o : EvictSendOutcome) (hran : s.cleanupRan = false) :
    consumerTooSlowFrame.Error = some { error := "ConsumerTooSlow", message := "" } ∧
    slowConsumerGraceSeconds = 5 ∧
    (evictSlowConsumer em s o).2.queue =
      (if s.cleanedUp = false ∧ o = EvictSendOutcome.delivered
        then s.queue ++ [consumerTooSlowFrame] else s.queue) ∧
    (evictSlowConsumer em s o).2.cleanedUp = true ∧
    (evictSlowConsumer em s o).2.outgoingClosed = true ∧
    (em.count s.id ≤ 1 → s.id ∉ (evictSlowConsumer em s o).1) := by
  refine ⟨rfl, rfl, ?_, ?_, ?_, ?_⟩
  · cases o <;> by_cases hc : s.cleanedUp <;>
      simp [evictSlowConsumer, cleanupSub, hran, hc]
  · cases o <;> by_cases hc : s.cleanedUp <;>
      simp [evictSlowConsumer, cleanupSub, hran, hc]
  · cases o <;> by_cases hc : s.cleanedUp <;>
      simp [evictSlowConsumer, cleanupSub, hran, hc]
  · intro hcount
    have hrm := rmSubscriber_not_mem em s.id hcount
    cases o <;> by_cases hc : s.cleanedUp <;>
      simp [evictSlowConsumer, cleanupSub, hran, hc, hrm]

/-- Witness for claim C6: a concrete not-yet-cleaned-up subscriber, with the
send completing in time. -/
theorem slow_consumer_eviction_witness :
    consumerTooSlowFrame.Error = some { error := "ConsumerTooSlow", message := "" } ∧
    slowConsumerGraceSeconds = 5 ∧
    (evictSlowConsumer [9] (freshSub 9) EvictSendOutcome.delivered).2.queue =
      (if (freshSub 9).cleanedUp = false ∧
          EvictSendOutcome.delivered = EvictSendOutcome.delivered
        then (freshSub 9).queue ++ [consumerTooSlowFrame] else (freshSub 9).queue) ∧
    (evictSlowConsumer [9] (freshSub 9) EvictSendOutcome.delivered).2.cleanedUp = true ∧
    (evictSlowConsumer [9] (freshSub 9) EvictSendOutcome.delivered).2.outgoingClosed = true ∧
    (List.count 9 [9] ≤ 1 →
      (9 : Nat) ∉ (evictSlowConsumer [9] (freshSub 9) EvictSendOutcome.delivered).1) :=
  slow_consumer_eviction [9] (freshSub 9) EvictSendOutcome.delivered rfl

/-- A concrete accept-all subscriber whose queue is full (capacity 0). -/
def slowSub : Subscriber :=
  { id := 9, queue := [], bufferSize := 0, doneClosed := false,
    outgoingClosed := false, cleanedUp := false, cleanupRan := false,
    enqueuedCount := 0, broadcastCount := 0, filter := fun _ => true }

/-- Claim C9 counterexample: for a matching subscriber whose queue is full,
the event is not enqueued and the eviction task is spawned, yet the
broadcast counter is still incremented — the source increments it after the
select in every branch, not only on a successful push. -/
theorem broadcastCounter_full_counterexample :
    (broadcastToSub false (commitEvt 11) slowSub).1.broadcastCount
        = slowSub.broadcastCount + 1 ∧
    (broadcastToSub false (commitEvt 11) slowSub).1.queue = slowSub.queue ∧
    (broadcastToSub false (commitEvt 11) slowSub).2 = true :=
  ⟨rfl, rfl, rfl⟩

/-- Claim C9 (amended): for each subscriber whose filter matches, the
enqueued counter is incremented before the select and the broadcast counter
is incremented after the select regardless of its outcome (push, done
observed, or full queue); a non-matching subscriber's counters are
unchanged. -/
theorem broadcast_counters_spec (p : Bool) (evt : XRPCStreamEvent)
    (s : Subscriber) :
    (broadcastToSub p evt s).1.enqueuedCount =
      (if s.filter evt then s.enqueuedCount + 1 else s.enqueuedCount) ∧
    (broadcastToSub p evt s).1.broadcastCount =
      (if s.filter evt then s.broadcastCount + 1 else s.broadcastCount) := by
  by_cases h : s.filter evt
  · cases hb : selectBranch p { s with enqueuedCount := s.enqueuedCount + 1 } <;>
      simp [broadcastToSub, h, hb]
  · simp [broadcastToSub, h]

/-- Modelled from the spec: the persistence port's `Playback(ctx, sinceSeq,
visit)` visits every persisted event with `seq > sinceSeq`, in sequence
order (the `EventPersistence` implementation is outside this repository's
sources; only its contract is specified). The result is the list of events
the visitor is invoked on, in order. -/
def playbackEvents (sinceSeq : Int) (log : List XRPCStreamEvent) :
    List XRPCStreamEvent :=
  log.filter (fun e => decide (sinceSeq < seqOf e))

/-- The cold-replay visitor's cursor update: after forwarding an event, the
coordinator records its sequence as `lastSeq` when it is positive. -/
def updateLastSeq (acc : Int) (e : XRPCStreamEvent) : Int :=
  if 0 < seqOf e then seqOf e else acc

/-- The observable outcome of one run of the join coordinator goroutine of
`Subscribe` (steady state: no cancellation, no playback failure): the events
forwarded by each phase, the cursor after the cold replay, the event read
from the live queue at attachment, and whether the hot replay ended through
the caught-up sentinel rather than log exhaustion. -/
structure JoinRun where
  coldOut : List XRPCStreamEvent
  lastSeq : Int
  firstEvt : Option XRPCStreamEvent
  hotOut : List XRPCStreamEvent
  hotCaughtUp : Bool
  liveOut : List XRPCStreamEvent
deriving DecidableEq, Repr

/-- The join coordinator of `Subscribe` for a `since` cursor, phase by phase
as in the source. `log1` is the persisted log the cold replay runs over,
`log3` the (possibly longer) log the hot replay runs over, and `queue` the
contents the subscriber's live outgoing queue receives after attachment.
Phase 1 forwards the cold playback and folds `lastSeq`; phase 2 reads one
event `first` from the queue; phase 3 plays back from `lastSeq`, forwarding
while `seq(e) ≤ sequenceForEvent(first)` and stopping with `ErrCaughtUp` at
the first event beyond it; phase 4 then drains the remainder of the queue.
An empty queue leaves the coordinator blocked at phase 2, so only the cold
replay is delivered. -/
def joinCoordinator (since : Int) (log1 log3 : List XRPCStreamEvent)
    (queue : List XRPCStreamEvent) : JoinRun :=
  let cold := playbackEvents since log1
  let last := cold.foldl updateLastSeq since
  match queue with
  | [] =>
      { coldOut := cold, lastSeq := last, firstEvt := none,
        hotOut := [], hotCaughtUp := false, liveOut := [] }
  | first :: rest =>
      let visits := playbackEvents last log3
      let sent := visits.takeWhile (fun e => decide (seqOf e ≤ seqOf first))
      { coldOut := cold, lastSeq := last, firstEvt := some first,
        hotOut := sent,
        hotCaughtUp := decide (sent.length < visits.length),
        liveOut := rest }

/-- Everything the subscriber receives on the merged channel, in order: the
cold replay, then the hot replay, then the live drain. -/
def JoinRun.delivered (r : JoinRun) : List XRPCStreamEvent :=
  r.coldOut ++ r.hotOut ++ r.liveOut

/-- The `lastSeq` fold yields either its initial value or the sequence of
some forwarded event. -/
theorem foldl_updateLastSeq_mem (l : List XRPCStreamEvent) (init : Int) :
    l.foldl updateLastSeq init = init ∨
      ∃ e ∈ l, l.foldl updateLastSeq init = seqOf e := by
  induction l generalizing init with
  | nil => exact Or.inl rfl
  | cons x t ih =>
    rw [List.foldl_cons]
    rcases ih (updateLastSeq init x) with h | ⟨e, he, h⟩
    · rw [h]
      unfold updateLastSeq
      by_cases hx : 0 < seqOf x
      · exact Or.inr ⟨x, List.mem_cons_self x t, by rw [if_pos hx]⟩
      · exact Or.inl (by rw [if_neg hx])
    · exact Or.inr ⟨e, List.mem_cons_of_mem x he, h⟩

/-- The `lastSeq` fold stays below any bound dominating its input. -/
theorem foldl_updateLastSeq_lt (l : List XRPCStreamEvent) (init c : Int)
    (hi : init < c) (hl : ∀ e ∈ l, seqOf e < c) :
    l.foldl updateLastSeq init < c := by
  rcases foldl_updateLastSeq_mem l init with h | ⟨e, he, h⟩ <;> rw [h]
  · exact hi
  · exact hl e he

/-- The `lastSeq` fold never drops below its initial value when every
forwarded event exceeds it. -/
theorem le_foldl_updateLastSeq (l : List XRPCStreamEvent) (init : Int)
    (hl : ∀ e ∈ l, init ≤ seqOf e) :
    init ≤ l.foldl updateLastSeq init := by
  rcases foldl_updateLastSeq_mem l init with h | ⟨e, he, h⟩ <;> rw [h]
  exact hl e he

/-- Over a strictly ascending, positively sequenced list, the `lastSeq` fold
dominates every element's sequence. -/
theorem seq_le_foldl_updateLastSeq (l : List XRPCStreamEvent)
    (hpos : ∀ e ∈ l, 0 < seqOf e)
    (hsorted : l.Pairwise (fun a b => seqOf a < seqOf b)) :
    ∀ init, ∀ e ∈ l, seqOf e ≤ l.foldl updateLastSeq init := by
  induction l with
  | nil => intro init e he; exact absurd he (List.not_mem_nil e)
  | cons x t ih =>
    intro init e he
    rw [List.foldl_cons]
    have hx0 : 0 < seqOf x := hpos x (List.mem_cons_self x t)
    have hupd : updateLastSeq init x = seqOf x := if_pos hx0
    rcases List.mem_cons.mp he with rfl | het
    · rw [hupd]
      rcases foldl_updateLastSeq_mem t (seqOf e) with h | ⟨e', he', h⟩ <;> rw [h]
      exact le_of_lt ((List.pairwise_cons.mp hsorted).1 e' he')
    · exact ih (fun a ha => hpos a (List.mem_cons_of_mem x ha))
        ((List.pairwise_cons.mp hsorted).2) (updateLastSeq init x) e het

/-- `takeWhile` passes over a prefix every element of which satisfies the
predicate. -/
theorem takeWhile_append_of_all {α : Type} {p : α → Bool} {X Y : List α}
    (h : ∀ x ∈ X, p x = true) :
    (X ++ Y).takeWhile p = X ++ Y.takeWhile p := by
  induction X with
  | nil => rfl
  | cons a t ih =>
    simp [List.takeWhile_cons, h a (List.mem_cons_self a t),
      ih (fun x hx => h x (List.mem_cons_of_mem a hx))]

/-- `takeWhile` takes nothing from a list none of whose elements satisfy the
predicate. -/
theorem takeWhile_eq_nil_of_all {α : Type} {p : α → Bool} {Y : List α}
    (h : ∀ x ∈ Y, p x = false) : Y.takeWhile p = [] := by
  cases Y with
  | nil => rfl
  | cons a t => simp [List.takeWhile_cons, h a (List.mem_cons_self a t)]

/-- Unfolding of the join coordinator on a non-empty live queue. -/
theorem joinCoordinator_cons (since : Int) (log1 log3 : List XRPCStreamEvent)
    (first : XRPCStreamEvent) (rest : List XRPCStreamEvent) :
    joinCoordinator since log1 log3 (first :: rest) =
      { coldOut := playbackEvents since log1,
        lastSeq := (playbackEvents since log1).foldl updateLastSeq since,
        firstEvt := some first,
        hotOut :=
          (playbackEvents
              ((playbackEvents since log1).foldl updateLastSeq since)
              log3).takeWhile (fun e => decide (seqOf e ≤ seqOf first)),
        hotCaughtUp := decide
          (((playbackEvents
              ((playbackEvents since log1).foldl updateLastSeq since)
              log3).takeWhile (fun e => decide (seqOf e ≤ seqOf first))).length
            < (playbackEvents
                ((playbackEvents since log1).foldl updateLastSeq since)
                log3).length),
        liveOut := rest } :=
  rfl

/-- The hot replay of the join coordinator, characterized: in a steady-state
run over a log `A ++ B ++ [f] ++ C ++ D` with strictly ascending positive
sequences — cold replay over the prefix `A`, the segment `B` persisted
before attachment, the live queue receiving `f`, `C` and `D`, and the hot
replay running over the log up to `C` — the hot replay forwards exactly the
events of `B` past the cursor, and then the persisted copy of `f` itself
(its comparator forwards events with sequence up to and including
`seq(f)`). -/
theorem joinCoordinator_hotOut_eq (s0 : Int) (A B C D : List XRPCStreamEvent)
    (f : XRPCStreamEvent)
    (hpos : ∀ e ∈ A ++ (B ++ (f :: (C ++ D))), 0 < seqOf e)
    (hmono : (A ++ (B ++ (f :: (C ++ D)))).Pairwise
      (fun a b => seqOf a < seqOf b))
    (hcur : s0 < seqOf f) :
    (joinCoordinator s0 A (A ++ (B ++ (f :: C))) (f :: (C ++ D))).hotOut
      = B.filter (fun e => decide (s0 < seqOf e)) ++ [f] := by
  rw [List.pairwise_append] at hmono
  obtain ⟨hA, hrest, hAr⟩ := hmono
  rw [List.pairwise_append] at hrest
  obtain ⟨hB, hfCD, hBr⟩ := hrest
  rw [List.pairwise_cons] at hfCD
  obtain ⟨hfCDmem, hCDpair⟩ := hfCD
  have hAf : ∀ a ∈ A, seqOf a < seqOf f := fun a ha =>
    hAr a ha f (List.mem_append.mpr (Or.inr (List.mem_cons_self f _)))
  have hAB : ∀ a ∈ A, ∀ b ∈ B, seqOf a < seqOf b := fun a ha b hb =>
    hAr a ha b (List.mem_append.mpr (Or.inl hb))
  have hBf : ∀ b ∈ B, seqOf b < seqOf f := fun b hb =>
    hBr b hb f (List.mem_cons_self f _)
  have hfC : ∀ c ∈ C, seqOf f < seqOf c := fun c hc =>
    hfCDmem c (List.mem_append.mpr (Or.inl hc))
  have hposA : ∀ a ∈ A, 0 < seqOf a := fun a ha =>
    hpos a (List.mem_append.mpr (Or.inl ha))
  set cold := playbackEvents s0 A with hcold
  set lst := cold.foldl updateLastSeq s0 with hlst
  have hcoldmemA : ∀ e ∈ cold, e ∈ A := fun e he =>
    (List.mem_filter.mp he).1
  have hcoldgt : ∀ e ∈ cold, s0 < seqOf e := fun e he =>
    of_decide_eq_true (List.mem_filter.mp he).2
  have hslast : s0 ≤ lst :=
    le_foldl_updateLastSeq cold s0 (fun e he => le_of_lt (hcoldgt e he))
  have hlastf : lst < seqOf f :=
    foldl_updateLastSeq_lt cold s0 (seqOf f) hcur
      (fun e he => hAf e (hcoldmemA e he))
  have hcoldsub : cold.Sublist A := List.filter_sublist A
  have hAle : ∀ a ∈ A, seqOf a ≤ lst := by
    intro a ha
    by_cases h : s0 < seqOf a
    · have hac : a ∈ cold :=
        List.mem_filter.mpr ⟨ha, decide_eq_true h⟩
      exact seq_le_foldl_updateLastSeq cold
        (fun e he => hposA e (hcoldmemA e he))
        (List.Pairwise.sublist hcoldsub hA) s0 a hac
    · exact le_trans (le_of_not_lt h) hslast
  have hBiff : ∀ b ∈ B, (lst < seqOf b ↔ s0 < seqOf b) := by
    intro b hb
    constructor
    · intro h
      exact lt_of_le_of_lt hslast h
    · intro _
      rcases foldl_updateLastSeq_mem cold s0 with h | ⟨e, he, h⟩ <;>
        rw [hlst, h]
      · assumption
      · exact hAB e (hcoldmemA e he) b hb
  rw [joinCoordinator_cons]
  show (playbackEvents lst (A ++ (B ++ (f :: C)))).takeWhile
      (fun e => decide (seqOf e ≤ seqOf f)) = _
  rw [show playbackEvents lst (A ++ (B ++ (f :: C)))
      = (A.filter (fun e => decide (lst < seqOf e)))
        ++ ((B.filter (fun e => decide (lst < seqOf e)))
          ++ (f :: C.filter (fun e => decide (lst < seqOf e)))) from by
    rw [playbackEvents, List.filter_append, List.filter_append]
    simp [List.filter_cons, hlastf]]
  rw [show A.filter (fun e => decide (lst < seqOf e)) = [] from
    List.filter_eq_nil_iff.mpr (fun a ha => by
      simp only [decide_eq_true_eq]
      exact not_lt_of_le (hAle a ha))]
  rw [List.nil_append]
  rw [takeWhile_append_of_all (fun b hb => by
    have hbB := (List.mem_filter.mp hb).1
    exact decide_eq_true (le_of_lt (hBf b hbB)))]
  rw [List.takeWhile_cons, decide_eq_true (le_refl (seqOf f))]
  rw [takeWhile_eq_nil_of_all (fun c hc => by
    have hcC := (List.mem_filter.mp hc).1
    exact decide_eq_false (not_le_of_lt (hfC c hcC)))]
  rw [List.filter_congr (fun b hb => decide_eq_decide.mpr (hBiff b hb))]
  simp
  exact fun b => inferInstance

/-- Steady-state delivery of the join coordinator: over a log
`A ++ B ++ [f] ++ C ++ D` with strictly ascending positive sequences and a
cursor below the first live event, the merged channel carries exactly the
persisted events past the cursor, in log order. -/
theorem joinCoordinator_delivered_eq (s0 : Int)
    (A B C D : List XRPCStreamEvent) (f : XRPCStreamEvent)
    (hpos : ∀ e ∈ A ++ (B ++ (f :: (C ++ D))), 0 < seqOf e)
    (hmono : (A ++ (B ++ (f :: (C ++ D)))).Pairwise
      (fun a b => seqOf a < seqOf b))
    (hcur : s0 < seqOf f) :
    (joinCoordinator s0 A (A ++ (B ++ (f :: C))) (f :: (C ++ D))).delivered
      = (A ++ (B ++ (f :: (C ++ D)))).filter
          (fun e => decide (s0 < seqOf e)) := by
  have hhot := joinCoordinator_hotOut_eq s0 A B C D f hpos hmono hcur
  rw [List.pairwise_append] at hmono
  obtain ⟨hA, hrest, hAr⟩ := hmono
  rw [List.pairwise_append] at hrest
  obtain ⟨hB, hfCD, hBr⟩ := hrest
  rw [List.pairwise_cons] at hfCD
  obtain ⟨hfCDmem, hCDpair⟩ := hfCD
  have hCDfil : (C ++ D).filter (fun e => decide (s0 < seqOf e)) = C ++ D :=
    List.filter_eq_self.mpr
      (fun e he => decide_eq_true (lt_trans hcur (hfCDmem e he)))
  have hcoldeq :
      (joinCoordinator s0 A (A ++ (B ++ (f :: C))) (f :: (C ++ D))).coldOut
        = A.filter (fun e => decide (s0 < seqOf e)) := rfl
  have hliveeq :
      (joinCoordinator s0 A (A ++ (B ++ (f :: C))) (f :: (C ++ D))).liveOut
        = C ++ D := rfl
  unfold JoinRun.delivered
  rw [hcoldeq, hliveeq, hhot]
  rw [show (A ++ (B ++ (f :: (C ++ D)))).filter
        (fun e => decide (s0 < seqOf e))
      = A.filter (fun e => decide (s0 < seqOf e))
        ++ (B.filter (fun e => decide (s0 < seqOf e)) ++ (f :: (C ++ D)))
      from by
    rw [List.filter_append, List.filter_append]
    simp [List.filter_cons, hcur, hCDfil]]
  simp [List.append_assoc]

/-- Claim C1: for a subscriber attached from cursor `s0` that is never
evicted and drains promptly (queue contents `f :: C ++ D`), the sequence
numbers delivered across the cold-replay / live-attach / hot-replay handoff
are exactly the persisted sequences strictly greater than `s0`, in order —
no gap and no extra events. -/
theorem subscribe_no_gap (s0 : Int)
    (A B C D : List XRPCStreamEvent) (f : XRPCStreamEvent)
    (hpos : ∀ e ∈ A ++ (B ++ (f :: (C ++ D))), 0 < seqOf e)
    (hmono : (A ++ (B ++ (f :: (C ++ D)))).Pairwise
      (fun a b => seqOf a < seqOf b))
    (hcur : s0 < seqOf f) :
    ((joinCoordinator s0 A (A ++ (B ++ (f :: C))) (f :: (C ++ D))).delivered).map seqOf
      = ((A ++ (B ++ (f :: (C ++ D)))).filter
          (fun e => decide (s0 < seqOf e))).map seqOf :=
  congrArg (List.map seqOf)
    (joinCoordinator_delivered_eq s0 A B C D f hpos hmono hcur)

/-- Witness for claim C1: log 1..6, cursor 1, cold replay over the first two
events, one event persisted before attachment, live queue `4, 5, 6`, hot
replay over the log up to sequence 5; delivery is exactly 2..6. -/
theorem subscribe_no_gap_witness :
    ((joinCoordinator 1 [commitEvt 1, commitEvt 2]
        ([commitEvt 1, commitEvt 2] ++ ([commitEvt 3] ++ (commitEvt 4 :: [commitEvt 5])))
        (commitEvt 4 :: ([commitEvt 5] ++ [commitEvt 6]))).delivered).map seqOf
      = (([commitEvt 1, commitEvt 2]
            ++ ([commitEvt 3] ++ (commitEvt 4 :: ([commitEvt 5] ++ [commitEvt 6])))).filter
          (fun e => decide (1 < seqOf e))).map seqOf :=
  subscribe_no_gap 1 [commitEvt 1, commitEvt 2] [commitEvt 3]
    [commitEvt 5] [commitEvt 6] (commitEvt 4)
    (by decide) (by decide) (by decide)

/-- Claim C3: no sequence number is delivered twice on the merged channel:
across the cold replay, the hot replay and the live drain, the delivered
sequence list has no duplicate, in particular at the seam around the first
live event. -/
theorem subscribe_at_most_once (s0 : Int)
    (A B C D : List XRPCStreamEvent) (f : XRPCStreamEvent)
    (hpos : ∀ e ∈ A ++ (B ++ (f :: (C ++ D))), 0 < seqOf e)
    (hmono : (A ++ (B ++ (f :: (C ++ D)))).Pairwise
      (fun a b => seqOf a < seqOf b))
    (hcur : s0 < seqOf f) :
    (((joinCoordinator s0 A (A ++ (B ++ (f :: C))) (f :: (C ++ D))).delivered).map seqOf).Nodup := by
  rw [joinCoordinator_delivered_eq s0 A B C D f hpos hmono hcur]
  have hsub : (List.filter (fun e => decide (s0 < seqOf e))
        (A ++ (B ++ (f :: (C ++ D))))).Sublist (A ++ (B ++ (f :: (C ++ D)))) :=
    List.filter_sublist (A ++ (B ++ (f :: (C ++ D))))
  have hp := List.Pairwise.sublist hsub hmono
  have hm := List.pairwise_map.mpr hp
  exact List.Pairwise.imp ne_of_lt hm

/-- Witness for claim C3: a concrete run over log 1, 3, 4, 5, 7 from cursor
2; the delivered sequences are duplicate-free. -/
theorem subscribe_at_most_once_witness :
    (((joinCoordinator 2 [commitEvt 1, commitEvt 3]
        ([commitEvt 1, commitEvt 3] ++ ([commitEvt 4] ++ (commitEvt 5 :: [])))
        (commitEvt 5 :: ([] ++ [commitEvt 7]))).delivered).map seqOf).Nodup :=
  subscribe_at_most_once 2 [commitEvt 1, commitEvt 3] [commitEvt 4]
    [] [commitEvt 7] (commitEvt 5)
    (by decide) (by decide) (by decide)

/-- Claim C4 counterexample: a run in which the hot replay terminates with
the caught-up sentinel (`first` is commit 2, and commit 3 triggers the
sentinel), yet the event sent to the merged channel right after phase 3 is
commit 3 from the live drain, not `first` itself: the coordinator never
re-sends `first`. -/
theorem join_first_not_resent_counterexample :
    (joinCoordinator 0 [commitEvt 1] [commitEvt 1, commitEvt 2, commitEvt 3]
        [commitEvt 2, commitEvt 3]).hotCaughtUp = true ∧
    (joinCoordinator 0 [commitEvt 1] [commitEvt 1, commitEvt 2, commitEvt 3]
        [commitEvt 2, commitEvt 3]).firstEvt = some (commitEvt 2) ∧
    (joinCoordinator 0 [commitEvt 1] [commitEvt 1, commitEvt 2, commitEvt 3]
        [commitEvt 2, commitEvt 3]).liveOut.head? = some (commitEvt 3) ∧
    some (commitEvt 3) ≠ some (commitEvt 2) := by
  decide

/-- Claim C4 (amended): after phase 3 the coordinator does not send `first`
itself; it proceeds directly to draining the remainder of the live queue.
No sequence is lost at the seam: the hot replay's comparator stops only
strictly beyond `seq(first)`, so the persisted copy of `first`'s sequence
has already been forwarded during phase 3. -/
theorem join_phase4_drains_rest (s0 : Int)
    (A B C D : List XRPCStreamEvent) (f : XRPCStreamEvent)
    (hpos : ∀ e ∈ A ++ (B ++ (f :: (C ++ D))), 0 < seqOf e)
    (hmono : (A ++ (B ++ (f :: (C ++ D)))).Pairwise
      (fun a b => seqOf a < seqOf b))
    (hcur : s0 < seqOf f) :
    (joinCoordinator s0 A (A ++ (B ++ (f :: C))) (f :: (C ++ D))).liveOut
        = C ++ D ∧
    seqOf f ∈ ((joinCoordinator s0 A (A ++ (B ++ (f :: C))) (f :: (C ++ D))).hotOut).map seqOf := by
  refine ⟨rfl, ?_⟩
  rw [joinCoordinator_hotOut_eq s0 A B C D f hpos hmono hcur]
  simp

/-- Witness for the amended claim C4 at a concrete run over log 1, 2, 3, 4. -/
theorem join_phase4_drains_rest_witness :
    (joinCoordinator 0 [commitEvt 1] ([commitEvt 1] ++ ([commitEvt 2] ++ (commitEvt 3 :: [commitEvt 4])))
        (commitEvt 3 :: ([commitEvt 4] ++ []))).liveOut = [commitEvt 4] ++ [] ∧
    seqOf (commitEvt 3) ∈ ((joinCoordinator 0 [commitEvt 1]
        ([commitEvt 1] ++ ([commitEvt 2] ++ (commitEvt 3 :: [commitEvt 4])))
        (commitEvt 3 :: ([commitEvt 4] ++ []))).hotOut).map seqOf :=
  join_phase4_drains_rest 0 [commitEvt 1] [commitEvt 2] [commitEvt 4] []
    (commitEvt 3) (by decide) (by decide) (by decide)

/-- Claim C2, evaluated on the code at the failing input: when the first
live event is a non-sequenced Info frame (`sequenceForEvent` gives -1), the
hot replay's comparator `seq > seq(first)` fires on the very first visited
event, so phase 3 forwards nothing and terminates through the caught-up
sentinel even though the log still holds a playable event — the code does
not treat a non-sequenced `first` as an unbounded upper limit. -/
theorem hot_replay_nonsequenced_first_bug :
    seqOf infoEvt = -1 ∧
    playbackEvents 0 [commitEvt 1] = [commitEvt 1] ∧
    (joinCoordinator 0 [] [commitEvt 1] [infoEvt]).hotOut = [] ∧
    (joinCoordinator 0 [] [commitEvt 1] [infoEvt]).hotCaughtUp = true := by
  decide

end Events
